import Mathlib

/-!
Verification development for the chat-agent message pipeline of this
repository: the message sanitizer (`cleanupMessages`), the human-in-the-loop
tool-call resolution processor (`processToolCalls`), the response
orchestrator follow-up logic (`Chat.onChatMessage`), and the external tool
adapters (`getWeatherInformation`, `searchWeb` truncation,
`getScheduledTasks`).  Definitions are shallow embeddings of the TypeScript
source in `src/agents-starter/src/utils.ts` and the server module.
-/

/-- Execution state of a tool-invocation UI part, as used by the source:
"input-streaming", "input-available", "output-available", "output-error". -/
inductive ToolState where
  | inputStreaming
  | inputAvailable
  | outputAvailable
  | outputError
deriving DecidableEq, Repr

/-- Dynamic values carried as tool inputs and outputs (JS values of
unconstrained shape; strings and numbers suffice for this development). -/
inductive Value where
  | str (s : String)
  | num (n : Int)
deriving DecidableEq, Repr

/-- A tool-invocation UI part.  The source stores the tool name inside the
part type string ("tool-" ++ name); here it is carried directly.  The
`errorText` field models the optional JS property of the same name (absent
property = `none`). -/
structure ToolPart where
  toolName : String
  toolCallId : String
  state : ToolState
  input : Value
  output : Option Value
  errorText : Option String
deriving DecidableEq, Repr

/-- One unit of message content: a text part, a tool part, or any other
part kind (step markers etc.), which the pipeline passes through. -/
inductive UIPart where
  | text (t : String)
  | tool (p : ToolPart)
  | other (kind : String)
deriving DecidableEq, Repr

/-- One conversation turn (the ai SDK UIMessage): identifier, role
("user" | "assistant" | "system"), ordered parts. -/
structure UIMessage where
  id : String
  role : String
  parts : List UIPart
deriving DecidableEq, Repr

/-- The source predicate `isToolUIPart` (a part whose type starts with
"tool-"). -/
def isToolUIPart : UIPart → Bool
  | .tool _ => true
  | _ => false

/-- A tool part still in "input-streaming" state (the lambda at
utils.ts:112-115). -/
def isStreamingPart : UIPart → Bool
  | .tool p =>
    match p.state with
    | .inputStreaming => true
    | _ => false
  | _ => false

/-- utils.ts:112-115: does the message contain a tool call that is still
streaming? -/
def hasStreamingToolCall (m : UIMessage) : Bool :=
  m.parts.any isStreamingPart

/-- The generic fallback used when an errored tool part carries no error
text (utils.ts:126). -/
def defaultToolErrorText : String := "An error occurred while executing the tool"

/-- utils.ts:122-137: rewrite a tool part in "output-error" state to
"output-available" with the error text as output, dropping the `errorText`
property.  The JS expression `part.errorText || default` treats an empty
string like an absent property. -/
def convertErrorPart : UIPart → UIPart
  | .tool p =>
    match p.state with
    | .outputError =>
      let e :=
        match p.errorText with
        | some s => if s = "" then defaultToolErrorText else s
        | none => defaultToolErrorText
      .tool { p with state := .outputAvailable, output := some (.str e), errorText := none }
    | _ => .tool p
  | part => part

/-- JS `String.prototype.trim`, modelled over the character sequence:
strip whitespace from both ends. -/
def trimChars (t : String) : String :=
  String.mk (((t.toList.dropWhile Char.isWhitespace).reverse.dropWhile
    Char.isWhitespace).reverse)

/-- utils.ts:146: a text part whose text is empty or whitespace-only
(`!part.text || part.text.trim().length === 0`). -/
def isBlankText : UIPart → Bool
  | .text t => (trimChars t).length == 0
  | _ => false

/-- utils.ts:121-155, the per-message transformation applied to every
message that is not dropped: convert errored tool parts, then, for
assistant messages containing a tool call, remove blank text parts. -/
def sanitizeMessage (m : UIMessage) : UIMessage :=
  let processedParts := m.parts.map convertErrorPart
  if m.role == "assistant" && processedParts.any isToolUIPart then
    { m with parts := processedParts.filter (fun p => !(isBlankText p)) }
  else
    { m with parts := processedParts }

/-- utils.ts:108-119 for a single message: `null` (dropped) when a tool
call is still streaming, otherwise the sanitized message. -/
def cleanupMessage? (m : UIMessage) : Option UIMessage :=
  if hasStreamingToolCall m then none else some (sanitizeMessage m)

/-- utils.ts:107-159 `cleanupMessages`: map each message to its cleaned
form or `null`, then drop the `null`s. -/
def cleanupMessages (messages : List UIMessage) : List UIMessage :=
  messages.filterMap cleanupMessage?

/-- Modelled from the spec: the approval tokens of `src/shared.ts` (not
among the sources); the spec names them APPROVE and DENY, supplied as the
output of a confirmation-required tool part.  The behavior proved below
depends only on which token the output equals, not on the exact strings. -/
structure ApprovalTokens where
  YES : String
  NO : String
deriving DecidableEq, Repr

/-- Modelled from the spec: concrete token values. -/
def APPROVAL : ApprovalTokens := { YES := "APPROVE", NO := "DENY" }

/-- The context handed to a confirmation-required execution function
(utils.ts:66-69): the full message history (the external SDK conversion
`convertToModelMessages` is not modelled and the messages are passed as
they are) and the invocation identifier. -/
structure ToolCallContext where
  messages : List UIMessage
  toolCallId : String

/-- An execution function from the confirmation registry: input and
context to result (the JS functions are async; effects are not modelled). -/
def ExecutionFn : Type := Value → ToolCallContext → Value

/-- The `executions` registry: an association list from tool name to the
registered function.  An entry carrying `none` models a JS property that
is present but set to `undefined` (so that `name in executions` holds
while `executions[name]` is falsy). -/
def Executions : Type := List (String × Option ExecutionFn)

/-- An event written to the outbound data stream
(`dataStream.write` at utils.ts:81-85). -/
structure StreamEvent where
  eventType : String
  toolCallId : String
  output : Value
deriving DecidableEq, Repr

/-- utils.ts:43-92, the per-part body of `processToolCalls`: resolve one
part, returning the (possibly updated) part and the events written for
it.  Non-tool parts, tools without a registry entry, parts not in
"output-available" state, and parts with no approval decision yet pass
through unchanged with no event. -/
def processPart (execs : Executions) (allMessages : List UIMessage) :
    UIPart → UIPart × List StreamEvent
  | .tool p =>
    match List.lookup p.toolName execs with
    | none => (.tool p, [])
    | some fn? =>
      if p.state = ToolState.outputAvailable then
        if p.output = some (.str APPROVAL.YES) then
          let result : Value :=
            match fn? with
            | some f => f p.input { messages := allMessages, toolCallId := p.toolCallId }
            | none => .str "Error: No execute function found on tool"
          (.tool { p with output := some result },
           [{ eventType := "tool-output-available", toolCallId := p.toolCallId,
              output := result }])
        else if p.output = some (.str APPROVAL.NO) then
          let result : Value := .str "Error: User denied access to tool execution"
          (.tool { p with output := some result },
           [{ eventType := "tool-output-available", toolCallId := p.toolCallId,
              output := result }])
        else
          (.tool p, [])
      else
        (.tool p, [])
  | part => (part, [])

/-- utils.ts:38-96: process one message by resolving each of its parts,
collecting the stream events in part order. -/
def processMessage (execs : Executions) (allMessages : List UIMessage)
    (m : UIMessage) : UIMessage × List StreamEvent :=
  let results := m.parts.map (processPart execs allMessages)
  ({ m with parts := results.map Prod.fst }, (results.map Prod.snd).flatten)

/-- utils.ts:22-100 `processToolCalls`: resolve every message, returning
the updated messages and all events written to the outbound stream. -/
def processToolCalls (execs : Executions) (messages : List UIMessage) :
    List UIMessage × List StreamEvent :=
  let results := messages.map (processMessage execs messages)
  (results.map Prod.fst, (results.map Prod.snd).flatten)

/-- tools.ts (utils.ts:516-518): the confirmation-required registry is
empty; all tools auto-execute. -/
def executionsRegistry : Executions := []

/-- server.ts (part_003:144-149): does the message contain a tool part in
"output-available" state? -/
def hasCompletedToolPart (m : UIMessage) : Bool :=
  m.parts.any fun part =>
    match part with
    | .tool p =>
      match p.state with
      | .outputAvailable => true
      | _ => false
    | _ => false

/-- server.ts (part_003:151-153): does the message contain a text part
with non-blank text (`part.text && part.text.trim().length > 0`)? -/
def hasNonEmptyText (m : UIMessage) : Bool :=
  m.parts.any fun part =>
    match part with
    | .text t => !((trimChars t).length == 0)
    | _ => false

/-- server.ts (part_003:139-156), the missing-narration check performed
once after the primary stream completes: the persisted last message is an
assistant message with at least one completed tool part and no non-empty
text content. -/
def needsNarrationFollowUp (messages : List UIMessage) : Bool :=
  match messages.getLast? with
  | some m => m.role == "assistant" && hasCompletedToolPart m && !(hasNonEmptyText m)
  | none => false

/-- server.ts (part_003:161-174): the synthesized user-role message that
prompts the model to narrate the tool result (`generateId` is external;
a placeholder identifier stands for the generated one). -/
def narrationPrompt : UIMessage :=
  { id := "generated-id", role := "user",
    parts := [.text "Please explain the tool result above to me in a clear, natural way."] }

/-- One completion request issued to the model endpoint: whether the tool
set is passed (the continuation at part_003:177-192 deliberately passes
no tools) and the message history submitted. -/
structure CompletionRequest where
  toolsEnabled : Bool
  messages : List UIMessage
deriving DecidableEq, Repr

/-- server.ts (part_003:25-197) `Chat.onChatMessage`, modelled as the
sequence of completion requests one turn issues.  `initialMessages` is
the stored history at entry (`this.messages`); `persistedAfterPrimary` is
the stored history re-read after the primary stream completes.  The
primary request carries the sanitized and resolved history with tools
enabled; when the missing-narration check fires, exactly one follow-up
request is issued, with tools disabled, on the persisted history plus the
synthesized narration prompt.  The check is straight-line code executed
once, after which the turn ends. -/
def onChatMessageRequests (initialMessages persistedAfterPrimary : List UIMessage) :
    List CompletionRequest :=
  let cleanedMessages := cleanupMessages initialMessages
  let processedMessages := (processToolCalls executionsRegistry cleanedMessages).fst
  let primary : CompletionRequest := { toolsEnabled := true, messages := processedMessages }
  if needsNarrationFollowUp persistedAfterPrimary then
    [primary,
     { toolsEnabled := false, messages := persistedAfterPrimary ++ [narrationPrompt] }]
  else
    [primary]

/-- utils.ts:175-178 `truncateText`: return the text unchanged when it
fits, otherwise the first `maxLength - 3` characters followed by the
ellipsis marker (JS `substring(0, maxLength - 3)`; strings are treated as
character sequences). -/
def truncateText (text : String) (maxLength : Nat) : String :=
  if text.length ≤ maxLength then text
  else String.mk (text.toList.take (maxLength - 3)) ++ "..."

/-- utils.ts:183-185 `isRateLimitError`. -/
def isRateLimitError (status : Nat) : Bool :=
  status == 429 || status == 403

/-- utils.ts:472: the configured maximum description length of the web
search adapter. -/
def MAX_DESCRIPTION_LENGTH : Nat := 200

/-- A raw result entry returned by the search API (the fields the adapter
reads). -/
structure SearchResultRaw where
  title : String
  description : String
  url : String
deriving DecidableEq, Repr

/-- A formatted result entry produced by the adapter. -/
structure SearchResultFormatted where
  title : String
  description : String
  url : String
deriving DecidableEq, Repr

/-- utils.ts:471-477, the result-formatting step of `searchWeb`: keep the
first three results and truncate titles to 100 and descriptions to
`MAX_DESCRIPTION_LENGTH` characters. -/
def formatSearchResults (results : List SearchResultRaw) : List SearchResultFormatted :=
  (results.take 3).map fun r =>
    { title := truncateText r.title 100,
      description := truncateText r.description MAX_DESCRIPTION_LENGTH,
      url := r.url }

/-- The JSON payload fields the weather adapter reads on success
(utils.ts:229-240).  The numeric fields are carried as integers; the JS
`Math.round` on floating-point temperatures is outside this model. -/
structure WeatherData where
  name : String
  country : String
  temp : Int
  feelsLike : Int
  description : String
  humidity : Int
  windSpeed : Int
deriving DecidableEq, Repr

/-- The outcome of the HTTP call made by the adapter: a response with a status code
and (for 2xx) parsed data, or a thrown error (an `Error` with a message,
or any other thrown value). -/
inductive FetchResult where
  | response (status : Nat) (data : WeatherData)
  | threw (message : Option String)
deriving DecidableEq, Repr

/-- utils.ts:202 message for a missing API key. -/
def weatherNotConfiguredMsg : String :=
  "Weather information is not configured. Please add OPENWEATHER_API_KEY to environment variables."

/-- utils.ts:217-221 message for HTTP 401. -/
def weatherAuthMsg : String :=
  "Weather API authentication failed. This usually means:\n1. Your API key is newly created and needs time to activate (can take up to 2 hours, usually much faster)\n2. Your API key might be invalid\n\nPlease wait a few minutes and try again, or verify your OPENWEATHER_API_KEY in .dev.vars is correct."

/-- utils.ts:224 message for rate limiting (429/403). -/
def weatherRateLimitMsg : String :=
  "Weather API rate limit reached. Free tier allows 1,000 calls per day. Please try again later or upgrade your API plan."

/-- utils.ts:214, the tail of the not-found message following the quoted
city name. -/
def weatherNotFoundTail : String :=
  "\" not found. Please check the spelling and try again."

/-- utils.ts:242-246, the success formatting. -/
def formatWeather (d : WeatherData) : String :=
  "Weather in " ++ d.name ++ ", " ++ d.country ++ ":\n- Temperature: " ++
    toString d.temp ++ "°C (feels like " ++ toString d.feelsLike ++
    "°C)\n- Conditions: " ++ d.description ++ "\n- Humidity: " ++
    toString d.humidity ++ "%\n- Wind Speed: " ++ toString d.windSpeed ++ " m/s"

/-- utils.ts:192-252, the weather adapter body as a function of the
configured API key, the requested city and the HTTP outcome.  Every path
returns a string; the enclosing JS `try`/`catch` is the `threw` case.
A response is `ok` when its status is in the 2xx range. -/
def getWeatherInformation (apiKey : Option String) (city : String)
    (fetch : FetchResult) : String :=
  match apiKey with
  | none => weatherNotConfiguredMsg
  | some _ =>
    match fetch with
    | .threw msg =>
      "Error fetching weather: " ++
        (match msg with | some m => m | none => "Unknown error")
    | .response status data =>
      if 200 ≤ status ∧ status < 300 then
        formatWeather data
      else if status = 404 then
        "City \"" ++ city ++ weatherNotFoundTail
      else if status = 401 then
        weatherAuthMsg
      else if isRateLimitError status then
        weatherRateLimitMsg
      else
        "Unable to fetch weather data (Error " ++ toString status ++ "). Please try again later."

/-- A scheduled task as listed by the scheduling primitive (identifier
and description; the trigger specification is opaque to the listing
tool). -/
structure ScheduledTask where
  id : String
  description : String
deriving DecidableEq, Repr

/-- The shapes the listing tool returns (utils.ts:377-401): a plain
string, the full task array, or a limited array with a message. -/
inductive TasksResult where
  | msg (s : String)
  | tasks (ts : List ScheduledTask)
  | limited (ts : List ScheduledTask) (message : String)
deriving DecidableEq, Repr

/-- utils.ts:387: the task-count cap. -/
def MAX_TASKS : Nat := 20

/-- utils.ts:374-402, the body of `getScheduledTasks` as a function of
the tasks the scheduling primitive reports. -/
def getScheduledTasks (tasks : List ScheduledTask) : TasksResult :=
  if tasks.length = 0 then
    .msg "No scheduled tasks found."
  else if tasks.length > MAX_TASKS then
    .limited (tasks.take MAX_TASKS)
      ("Showing " ++ toString MAX_TASKS ++ " of " ++ toString tasks.length ++
        " tasks. Use cancelScheduledTask to remove tasks and see more.")
  else
    .tasks tasks

/-- The task list carried by a `TasksResult` (empty for a plain string). -/
def returnedTasks : TasksResult → List ScheduledTask
  | .msg _ => []
  | .tasks ts => ts
  | .limited ts _ => ts

/-- The text contents of a part list, in order. -/
def textsOf (parts : List UIPart) : List String :=
  parts.filterMap fun p =>
    match p with
    | .text t => some t
    | _ => none

theorem convertErrorPart_idem (p : UIPart) :
    convertErrorPart (convertErrorPart p) = convertErrorPart p := by
  cases p with
  | text t => rfl
  | other k => rfl
  | tool tp =>
    obtain ⟨n, cid, st, inp, out, et⟩ := tp
    cases st <;> simp [convertErrorPart]

theorem isToolUIPart_convert (p : UIPart) :
    isToolUIPart (convertErrorPart p) = isToolUIPart p := by
  cases p with
  | text t => rfl
  | other k => rfl
  | tool tp =>
    obtain ⟨n, cid, st, inp, out, et⟩ := tp
    cases st <;> simp [convertErrorPart, isToolUIPart]

theorem isStreamingPart_convert (p : UIPart) :
    isStreamingPart (convertErrorPart p) = isStreamingPart p := by
  cases p with
  | text t => rfl
  | other k => rfl
  | tool tp =>
    obtain ⟨n, cid, st, inp, out, et⟩ := tp
    cases st <;> simp [convertErrorPart, isStreamingPart]

theorem isBlankText_convert (p : UIPart) :
    isBlankText (convertErrorPart p) = isBlankText p := by
  cases p with
  | text t => rfl
  | other k => rfl
  | tool tp =>
    obtain ⟨n, cid, st, inp, out, et⟩ := tp
    cases st <;> simp [convertErrorPart, isBlankText]

theorem isBlankText_of_tool (p : UIPart) (h : isToolUIPart p = true) :
    isBlankText p = false := by
  cases p with
  | text t => simp [isToolUIPart] at h
  | other k => simp [isToolUIPart] at h
  | tool tp => rfl

theorem isStreamingPart_tool (p : UIPart) (h : isStreamingPart p = true) :
    isToolUIPart p = true := by
  cases p with
  | text t => simp [isStreamingPart] at h
  | other k => simp [isStreamingPart] at h
  | tool tp => rfl

theorem any_filter_of_imp {q g : UIPart → Bool}
    (h : ∀ a, q a = true → g a = true) (l : List UIPart) :
    (l.filter g).any q = l.any q := by
  rw [List.any_filter]
  have hfg : (fun a => g a && q a) = q := by
    funext a
    cases hq : q a
    · simp
    · simp [h a hq]
  rw [hfg]

theorem map_convert_of_converted (l : List UIPart) :
    (l.map convertErrorPart).map convertErrorPart = l.map convertErrorPart := by
  rw [List.map_map]
  exact List.map_congr_left fun a _ => convertErrorPart_idem a

theorem map_convert_filter_of_converted (g : UIPart → Bool) (l : List UIPart) :
    ((l.map convertErrorPart).filter g).map convertErrorPart =
      (l.map convertErrorPart).filter g := by
  have h : ∀ a ∈ (l.map convertErrorPart).filter g, convertErrorPart a = a := by
    intro a ha
    obtain ⟨b, _, hb⟩ := List.mem_map.mp (List.mem_filter.mp ha).1
    rw [← hb]
    exact convertErrorPart_idem b
  calc ((l.map convertErrorPart).filter g).map convertErrorPart
      = ((l.map convertErrorPart).filter g).map id := List.map_congr_left h
    _ = (l.map convertErrorPart).filter g := List.map_id _

theorem any_congr_of_mem {α : Type} {f g : α → Bool} :
    ∀ {l : List α}, (∀ a ∈ l, f a = g a) → l.any f = l.any g
  | [], _ => rfl
  | a :: l, h => by
    simp only [List.any_cons, h a (List.mem_cons_self a l),
      any_congr_of_mem fun b hb => h b (List.mem_cons_of_mem a hb)]

theorem hasStreamingToolCall_sanitize (m : UIMessage) :
    hasStreamingToolCall (sanitizeMessage m) = hasStreamingToolCall m := by
  unfold sanitizeMessage hasStreamingToolCall
  have hmap : (m.parts.map convertErrorPart).any isStreamingPart =
      m.parts.any isStreamingPart := by
    rw [List.any_map]
    exact any_congr_of_mem fun a _ => isStreamingPart_convert a
  by_cases hc : m.role == "assistant" && (m.parts.map convertErrorPart).any isToolUIPart
  · simp only [hc, if_true]
    rw [any_filter_of_imp (fun a ha =>
      by rw [Bool.not_eq_true', isBlankText_of_tool a (isStreamingPart_tool a ha)]), hmap]
  · simp only [hc, if_false]
    exact hmap

theorem sanitizeMessage_idem (m : UIMessage) :
    sanitizeMessage (sanitizeMessage m) = sanitizeMessage m := by
  by_cases hc : (m.role == "assistant" && (m.parts.map convertErrorPart).any isToolUIPart) = true
  · have hstr := ((Bool.and_eq_true _ _).mp hc).1
    have hany0 := ((Bool.and_eq_true _ _).mp hc).2
    have hany2 : ((m.parts.map convertErrorPart).filter (fun p => !(isBlankText p))).any
        isToolUIPart = true := by
      rw [any_filter_of_imp fun a ha => by
        rw [Bool.not_eq_true', isBlankText_of_tool a ha]]
      exact hany0
    have h1 : sanitizeMessage m =
        { m with parts := (m.parts.map convertErrorPart).filter (fun p => !(isBlankText p)) } := by
      unfold sanitizeMessage
      exact if_pos hc
    have hc2 : (({ m with parts := (m.parts.map convertErrorPart).filter (fun p => !(isBlankText p)) } : UIMessage).role == "assistant" && (({ m with parts := (m.parts.map convertErrorPart).filter (fun p => !(isBlankText p)) } : UIMessage).parts.map convertErrorPart).any isToolUIPart) = true := by
      show (m.role == "assistant" && (((m.parts.map convertErrorPart).filter (fun p => !(isBlankText p))).map convertErrorPart).any isToolUIPart) = true
      rw [map_convert_filter_of_converted, hstr, hany2]
      rfl
    have h2 : sanitizeMessage { m with parts := (m.parts.map convertErrorPart).filter (fun p => !(isBlankText p)) } = { m with parts := ((((m.parts.map convertErrorPart).filter (fun p => !(isBlankText p))).map convertErrorPart).filter (fun p => !(isBlankText p))) } := by
      unfold sanitizeMessage
      exact if_pos hc2
    rw [h1, h2, map_convert_filter_of_converted, List.filter_filter]
    exact congrArg (fun ps => ({ m with parts := ps } : UIMessage))
      (List.filter_congr fun a _ => Bool.and_self _)
  · have h1 : sanitizeMessage m = { m with parts := m.parts.map convertErrorPart } := by
      unfold sanitizeMessage
      exact if_neg hc
    have hc2 : ¬ (({ m with parts := m.parts.map convertErrorPart } : UIMessage).role == "assistant" && (({ m with parts := m.parts.map convertErrorPart } : UIMessage).parts.map convertErrorPart).any isToolUIPart) = true := by
      show ¬ (m.role == "assistant" &&
        ((m.parts.map convertErrorPart).map convertErrorPart).any isToolUIPart) = true
      rw [map_convert_of_converted]
      exact hc
    have h2 : sanitizeMessage { m with parts := m.parts.map convertErrorPart } =
        { m with parts := (m.parts.map convertErrorPart).map convertErrorPart } := by
      unfold sanitizeMessage
      exact if_neg hc2
    rw [h1, h2, map_convert_of_converted]

theorem cleanupMessages_eq (ms : List UIMessage) :
    cleanupMessages ms =
      (ms.filter (fun m => !(hasStreamingToolCall m))).map sanitizeMessage := by
  induction ms with
  | nil => rfl
  | cons m ms ih =>
    by_cases h : hasStreamingToolCall m = true
    · have h1 : cleanupMessage? m = none := by
        unfold cleanupMessage?
        exact if_pos h
      have h2 : (fun m => !(hasStreamingToolCall m)) m = false := by
        show (!(hasStreamingToolCall m)) = false
        rw [h]
        rfl
      simp only [cleanupMessages, List.filterMap_cons, h1, List.filter_cons, h2,
        Bool.false_eq_true, if_false]
      exact ih
    · have h1 : cleanupMessage? m = some (sanitizeMessage m) := by
        unfold cleanupMessage?
        exact if_neg h
      have h2 : (fun m => !(hasStreamingToolCall m)) m = true := by
        show (!(hasStreamingToolCall m)) = true
        rw [(Bool.not_eq_true _).mp h]
        rfl
      simp only [cleanupMessages, List.filterMap_cons, h1, List.filter_cons, h2, if_true,
        List.map_cons]
      exact congrArg (sanitizeMessage m :: ·) ih

/-- C1: the message sanitizer is idempotent: applying `cleanupMessages` to
its own output yields exactly that output, for every message list. -/
theorem cleanupMessages_idempotent (ms : List UIMessage) :
    cleanupMessages (cleanupMessages ms) = cleanupMessages ms := by
  rw [cleanupMessages_eq ms, cleanupMessages_eq]
  rw [List.filter_map]
  have h1 : ((fun m => !(hasStreamingToolCall m)) ∘ sanitizeMessage) =
      fun m => !(hasStreamingToolCall m) := by
    funext m
    show (!(hasStreamingToolCall (sanitizeMessage m))) = (!(hasStreamingToolCall m))
    rw [hasStreamingToolCall_sanitize]
  rw [h1, List.filter_filter]
  have h2 : (fun a => (!(hasStreamingToolCall a)) && !(hasStreamingToolCall a)) =
      fun a => !(hasStreamingToolCall a) := by
    funext a
    exact Bool.and_self _
  rw [h2, List.map_map]
  have h3 : sanitizeMessage ∘ sanitizeMessage = sanitizeMessage := funext sanitizeMessage_idem
  rw [h3]

/-- C2: `cleanupMessages` excludes exactly the messages containing a tool
part in input-streaming state, and every other message appears - in its
sanitized form - in the output in the original relative order. -/
theorem cleanupMessages_excludes_streaming (ms : List UIMessage) :
    cleanupMessages ms =
      (ms.filter (fun m => !(hasStreamingToolCall m))).map sanitizeMessage :=
  cleanupMessages_eq ms

/-- C3: a tool part in output-error state is rewritten by the sanitizer to
output-available state, its output set to the error text (the generic
default when the error text is absent - or empty, which the JS falsy check
treats as absent), and the resulting part carries no `errorText` field. -/
theorem cleanup_rewrites_error_parts (p : ToolPart) (h : p.state = ToolState.outputError) :
    (∀ s, p.errorText = some s → s ≠ "" →
      convertErrorPart (.tool p) =
        .tool { p with state := .outputAvailable, output := some (.str s), errorText := none }) ∧
    (p.errorText = none →
      convertErrorPart (.tool p) =
        .tool { p with state := .outputAvailable, output := some (.str defaultToolErrorText), errorText := none }) ∧
    (p.errorText = some "" →
      convertErrorPart (.tool p) =
        .tool { p with state := .outputAvailable, output := some (.str defaultToolErrorText), errorText := none }) := by
  obtain ⟨n, cid, st, inp, out, et⟩ := p
  simp only at h
  subst h
  refine ⟨?_, ?_, ?_⟩
  · intro s hs hne
    simp only at hs
    subst hs
    simp [convertErrorPart, hne]
  · intro he
    simp only at he
    subst he
    simp [convertErrorPart]
  · intro he
    simp only at he
    subst he
    simp [convertErrorPart]

/-- Concrete application of `cleanup_rewrites_error_parts`. -/
theorem cleanup_rewrites_error_parts_witness :
    convertErrorPart (.tool { toolName := "searchWeb", toolCallId := "c1", state := .outputError, input := .str "q", output := some (.str "old"), errorText := some "boom" }) =
      .tool { toolName := "searchWeb", toolCallId := "c1", state := .outputAvailable, input := .str "q", output := some (.str "boom"), errorText := none } :=
  (cleanup_rewrites_error_parts _ rfl).1 "boom" rfl (by decide)

theorem textsOf_map_convert : ∀ l : List UIPart,
    textsOf (l.map convertErrorPart) = textsOf l
  | [] => rfl
  | p :: l => by
    cases p with
    | text t =>
      simp only [List.map_cons, textsOf, List.filterMap_cons, convertErrorPart]
      exact congrArg (t :: ·) (textsOf_map_convert l)
    | tool tp =>
      obtain ⟨n, cid, st, inp, out, et⟩ := tp
      cases st <;>
        simpa only [List.map_cons, textsOf, List.filterMap_cons, convertErrorPart] using
          textsOf_map_convert l
    | other k =>
      simp only [List.map_cons, textsOf, List.filterMap_cons, convertErrorPart]
      exact textsOf_map_convert l

theorem textsOf_filter_blank : ∀ l : List UIPart,
    textsOf (l.filter (fun p => !(isBlankText p))) =
      (textsOf l).filter (fun t => !((trimChars t).length == 0))
  | [] => rfl
  | p :: l => by
    cases p with
    | text t =>
      by_cases hb : ((trimChars t).length == 0) = true
      · simp only [textsOf, List.filter_cons, List.filterMap_cons, isBlankText, hb,
          Bool.not_true, Bool.false_eq_true, if_false]
        exact textsOf_filter_blank l
      · have hb' : ((trimChars t).length == 0) = false := (Bool.not_eq_true _).mp hb
        simp only [textsOf, List.filter_cons, List.filterMap_cons, isBlankText, hb',
          Bool.not_false, if_true]
        exact congrArg (t :: ·) (textsOf_filter_blank l)
    | tool tp =>
      simp only [textsOf, List.filter_cons, List.filterMap_cons, isBlankText,
        Bool.not_false, if_true]
      exact textsOf_filter_blank l
    | other k =>
      simp only [textsOf, List.filter_cons, List.filterMap_cons, isBlankText,
        Bool.not_false, if_true]
      exact textsOf_filter_blank l

theorem any_isTool_map_convert (l : List UIPart) :
    (l.map convertErrorPart).any isToolUIPart = l.any isToolUIPart := by
  rw [List.any_map]
  exact any_congr_of_mem fun a _ => isToolUIPart_convert a

/-- A message exhibiting the boundary of C4: an assistant message with a
tool part and a non-empty text part, where the tool part is still
input-streaming. -/
def c4Message : UIMessage :=
  { id := "m1", role := "assistant",
    parts := [.tool { toolName := "searchWeb", toolCallId := "c1", state := .inputStreaming, input := .str "q", output := none, errorText := none }, .text "The weather looks fine"] }

/-- C4 counterexample: `c4Message` is an assistant message containing a
tool part and a non-empty text part, yet `cleanupMessages` drops the
entire message (the tool part is input-streaming), so the non-empty text
part is not preserved in the output as the claim states. -/
theorem cleanup_c4_counterexample :
    c4Message.role = "assistant" ∧
    c4Message.parts.any isToolUIPart = true ∧
    textsOf c4Message.parts = ["The weather looks fine"] ∧
    ((trimChars "The weather looks fine").length == 0) = false ∧
    cleanupMessages [c4Message] = [] := by
  refine ⟨rfl, rfl, rfl, by decide, rfl⟩

/-- C4 amended: for every assistant message with at least one tool part,
the sanitized form drops exactly the blank text parts and keeps the
non-empty ones verbatim in order; messages that are not
assistant-with-tool keep all their text parts; and any message with no
input-streaming tool part survives into the output of `cleanupMessages`
in sanitized form (a message with a streaming tool part is dropped whole,
including its text parts). -/
theorem cleanup_text_parts (m : UIMessage) :
    (m.role = "assistant" → m.parts.any isToolUIPart = true →
      textsOf (sanitizeMessage m).parts =
        (textsOf m.parts).filter (fun t => !((trimChars t).length == 0))) ∧
    (¬(m.role = "assistant" ∧ m.parts.any isToolUIPart = true) →
      textsOf (sanitizeMessage m).parts = textsOf m.parts) ∧
    (hasStreamingToolCall m = false → ∀ ms, m ∈ ms →
      sanitizeMessage m ∈ cleanupMessages ms) := by
  refine ⟨?_, ?_, ?_⟩
  · intro hrole hany
    have hc : (m.role == "assistant" && (m.parts.map convertErrorPart).any isToolUIPart) = true := by
      rw [hrole, any_isTool_map_convert, hany]
      rfl
    have h1 : sanitizeMessage m = { m with parts := (m.parts.map convertErrorPart).filter (fun p => !(isBlankText p)) } := by
      unfold sanitizeMessage
      exact if_pos hc
    rw [h1]
    show textsOf ((m.parts.map convertErrorPart).filter (fun p => !(isBlankText p))) = _
    rw [textsOf_filter_blank, textsOf_map_convert]
  · intro hn
    have hc : ¬(m.role == "assistant" && (m.parts.map convertErrorPart).any isToolUIPart) = true := by
      intro hcontra
      exact hn ⟨beq_iff_eq.mp ((Bool.and_eq_true _ _).mp hcontra).1,
        by rw [← any_isTool_map_convert]; exact ((Bool.and_eq_true _ _).mp hcontra).2⟩
    have h1 : sanitizeMessage m = { m with parts := m.parts.map convertErrorPart } := by
      unfold sanitizeMessage
      exact if_neg hc
    rw [h1]
    show textsOf (m.parts.map convertErrorPart) = _
    rw [textsOf_map_convert]
  · intro hstr ms hm
    rw [cleanupMessages_eq]
    refine List.mem_map_of_mem _ (List.mem_filter.mpr ⟨hm, ?_⟩)
    show (!(hasStreamingToolCall m)) = true
    rw [hstr]
    rfl

/-- An assistant message with a blank text part, a completed tool part
and a non-empty text part. -/
def c4WitnessMessage : UIMessage :=
  { id := "w", role := "assistant", parts := [.text " ", .tool { toolName := "getLocalTime", toolCallId := "cw", state := .outputAvailable, input := .str "x", output := some (.str "y"), errorText := none }, .text "ok"] }

/-- Concrete application of `cleanup_text_parts`: the blank text part is
gone, "ok" is preserved, and the sanitized message is in the output. -/
theorem cleanup_text_parts_witness :
    textsOf (sanitizeMessage c4WitnessMessage).parts = ["ok"] ∧
    sanitizeMessage c4WitnessMessage ∈ cleanupMessages [c4WitnessMessage] := by
  constructor
  · exact ((cleanup_text_parts c4WitnessMessage).1 rfl rfl).trans (by decide)
  · exact (cleanup_text_parts c4WitnessMessage).2.2 rfl _ (List.mem_singleton.mpr rfl)

/-- C5: a confirmation-required tool part in "output-available" state
whose output is the APPROVE token and whose tool name has a registered
execution function gets the return value of that function as its new output,
and exactly one tool-output-available event carrying that value and the
invocation identifier of the part is written to the stream; a part whose
output is neither APPROVE nor DENY is returned unchanged with no event. -/
theorem processToolCalls_approval (execs : Executions) (f : Value → ToolCallContext → Value)
    (p : ToolPart) (mid mrole : String) :
    (List.lookup p.toolName execs = some (some f) →
      p.state = ToolState.outputAvailable →
      p.output = some (.str APPROVAL.YES) →
      processToolCalls execs [{ id := mid, role := mrole, parts := [.tool p] }] =
        ([{ id := mid, role := mrole, parts := [.tool { p with output := some (f p.input { messages := [{ id := mid, role := mrole, parts := [.tool p] }], toolCallId := p.toolCallId }) }] }],
         [{ eventType := "tool-output-available", toolCallId := p.toolCallId, output := f p.input { messages := [{ id := mid, role := mrole, parts := [.tool p] }], toolCallId := p.toolCallId } }])) ∧
    (p.output ≠ some (.str APPROVAL.YES) →
      p.output ≠ some (.str APPROVAL.NO) →
      processToolCalls execs [{ id := mid, role := mrole, parts := [.tool p] }] =
        ([{ id := mid, role := mrole, parts := [.tool p] }], [])) := by
  constructor
  · intro hl hs hy
    simp only [processToolCalls, processMessage, List.map_cons, List.map_nil, processPart,
      hl, hs, hy, if_pos, List.flatten]
    simp
  · intro hy hn
    rcases hlook : List.lookup p.toolName execs with _ | fn?
    · simp only [processToolCalls, processMessage, List.map_cons, List.map_nil, processPart,
        hlook, List.flatten]
      simp
    · by_cases hs : p.state = ToolState.outputAvailable
      · simp only [processToolCalls, processMessage, List.map_cons, List.map_nil, processPart,
          hlook, hs, hy, hn, if_pos, if_neg, List.flatten]
        simp [hy, hn]
      · simp only [processToolCalls, processMessage, List.map_cons, List.map_nil, processPart,
          hlook, hs, List.flatten]
        simp [hs]

/-- A registry with an execution function for `searchWeb` returning "R". -/
def c5Execs : Executions := [("searchWeb", some (fun _ _ => .str "R"))]

/-- An approved confirmation-required tool part. -/
def c5Part : ToolPart :=
  { toolName := "searchWeb", toolCallId := "call-1", state := .outputAvailable, input := .str "q", output := some (.str APPROVAL.YES), errorText := none }

/-- Concrete application of `processToolCalls_approval`: the approved part
gets output "R" with exactly one event, and a part with no decision is
returned unchanged with no event. -/
theorem processToolCalls_approval_witness :
    processToolCalls c5Execs [{ id := "m", role := "assistant", parts := [.tool c5Part] }] =
      ([{ id := "m", role := "assistant", parts := [.tool { c5Part with output := some (.str "R") }] }],
       [{ eventType := "tool-output-available", toolCallId := "call-1", output := .str "R" }]) ∧
    processToolCalls c5Execs [{ id := "m2", role := "assistant", parts := [.tool { c5Part with output := some (.str "no-decision") }] }] =
      ([{ id := "m2", role := "assistant", parts := [.tool { c5Part with output := some (.str "no-decision") }] }], []) := by
  constructor
  · exact (processToolCalls_approval c5Execs (fun _ _ => .str "R") c5Part "m" "assistant").1
      rfl rfl rfl
  · exact (processToolCalls_approval c5Execs (fun _ _ => .str "R")
      { c5Part with output := some (.str "no-decision") } "m2" "assistant").2
      (by decide) (by decide)

/-- An approved tool part whose tool name has no entry at all in the
(empty) executions registry. -/
def c6Part : ToolPart :=
  { toolName := "searchWeb", toolCallId := "c6", state := .outputAvailable, input := .str "q", output := some (.str APPROVAL.YES), errorText := none }

/-- C6 counterexample: with no matching execution function (no registry
entry for the tool name), the part is returned unchanged - its output
stays the APPROVE token and is not set to any error string, contrary to
the claim. -/
theorem processToolCalls_c6_counterexample :
    List.lookup c6Part.toolName ([] : Executions) = none ∧
    c6Part.output = some (.str APPROVAL.YES) ∧
    processToolCalls [] [{ id := "m", role := "assistant", parts := [.tool c6Part] }] =
      ([{ id := "m", role := "assistant", parts := [.tool c6Part] }], []) ∧
    c6Part.output ≠ some (.str "no execute function found for tool") := by
  refine ⟨rfl, rfl, ?_, by decide⟩
  simp only [processToolCalls, processMessage, List.map_cons, List.map_nil, processPart,
    List.lookup, List.flatten]
  simp

/-- C6 amended: a tool part whose tool name has no registry entry is
passed through unchanged with no event (the guard at utils.ts:53 skips it
before the error branch is reached); the fixed string "Error: No execute
function found on tool" is assigned - with one event - only when the
registry has an entry for the name whose function value is absent. -/
theorem processToolCalls_no_execute_function (execs : Executions) (p : ToolPart)
    (mid mrole : String) :
    (List.lookup p.toolName execs = none →
      processToolCalls execs [{ id := mid, role := mrole, parts := [.tool p] }] =
        ([{ id := mid, role := mrole, parts := [.tool p] }], [])) ∧
    (List.lookup p.toolName execs = some none →
      p.state = ToolState.outputAvailable →
      p.output = some (.str APPROVAL.YES) →
      processToolCalls execs [{ id := mid, role := mrole, parts := [.tool p] }] =
        ([{ id := mid, role := mrole, parts := [.tool { p with output := some (.str "Error: No execute function found on tool") }] }],
         [{ eventType := "tool-output-available", toolCallId := p.toolCallId, output := .str "Error: No execute function found on tool" }])) := by
  constructor
  · intro hl
    simp only [processToolCalls, processMessage, List.map_cons, List.map_nil, processPart,
      hl, List.flatten]
    simp
  · intro hl hs hy
    simp only [processToolCalls, processMessage, List.map_cons, List.map_nil, processPart,
      hl, hs, hy, if_pos, List.flatten]
    simp

/-- A registry whose `searchWeb` entry carries no function value. -/
def c6Execs : Executions := [("searchWeb", (none : Option ExecutionFn))]

/-- Concrete application of `processToolCalls_no_execute_function`. -/
theorem processToolCalls_no_execute_function_witness :
    processToolCalls c6Execs [{ id := "m", role := "assistant", parts := [.tool c6Part] }] =
      ([{ id := "m", role := "assistant", parts := [.tool { c6Part with output := some (.str "Error: No execute function found on tool") }] }],
       [{ eventType := "tool-output-available", toolCallId := "c6", output := .str "Error: No execute function found on tool" }]) :=
  (processToolCalls_no_execute_function c6Execs c6Part "m" "assistant").2 rfl rfl rfl

/-- C7: when the persisted conversation after the primary stream ends
with an assistant message holding a completed tool part and no non-empty
text, the turn issues exactly one follow-up completion request, with
tools disabled, on the persisted history plus the synthesized narration
prompt; otherwise only the primary request is issued.  In every case at
most one tools-disabled request is issued: the missing-narration check is
straight-line code that is never re-applied after the follow-up. -/
theorem onChatMessage_single_followup (initial after : List UIMessage) :
    (needsNarrationFollowUp after = true →
      onChatMessageRequests initial after =
        [{ toolsEnabled := true, messages := (processToolCalls executionsRegistry (cleanupMessages initial)).fst },
         { toolsEnabled := false, messages := after ++ [narrationPrompt] }]) ∧
    (needsNarrationFollowUp after = false →
      onChatMessageRequests initial after =
        [{ toolsEnabled := true, messages := (processToolCalls executionsRegistry (cleanupMessages initial)).fst }]) ∧
    (onChatMessageRequests initial after).countP (fun r => !r.toolsEnabled) ≤ 1 := by
  by_cases h : needsNarrationFollowUp after = true
  · have he : onChatMessageRequests initial after =
        [{ toolsEnabled := true, messages := (processToolCalls executionsRegistry (cleanupMessages initial)).fst },
         { toolsEnabled := false, messages := after ++ [narrationPrompt] }] := by
      unfold onChatMessageRequests
      exact if_pos h
    refine ⟨fun _ => he, fun hf => absurd h (by rw [hf]; exact Bool.false_ne_true), ?_⟩
    rw [he]
    simp [List.countP_cons, List.countP_nil]
  · have hf : needsNarrationFollowUp after = false := (Bool.not_eq_true _).mp h
    have he : onChatMessageRequests initial after =
        [{ toolsEnabled := true, messages := (processToolCalls executionsRegistry (cleanupMessages initial)).fst }] := by
      unfold onChatMessageRequests
      exact if_neg h
    refine ⟨fun ht => absurd ht h, fun _ => he, ?_⟩
    rw [he]
    simp [List.countP_cons, List.countP_nil]

/-- A persisted history ending with an assistant message that has a
completed tool part and no non-empty text. -/
def c7After : List UIMessage :=
  [{ id := "a1", role := "assistant", parts := [.tool { toolName := "getLocalTime", toolCallId := "c7", state := .outputAvailable, input := .str "x", output := some (.str "7am"), errorText := none }, .text ""] }]

/-- Concrete application of `onChatMessage_single_followup`: the turn
issues the primary request plus exactly one tools-disabled follow-up. -/
theorem onChatMessage_single_followup_witness :
    onChatMessageRequests [] c7After =
      [{ toolsEnabled := true, messages := [] },
       { toolsEnabled := false, messages := c7After ++ [narrationPrompt] }] :=
  (onChatMessage_single_followup [] c7After).1 rfl

theorem truncateText_long (s : String) (h : MAX_DESCRIPTION_LENGTH < s.length) :
    truncateText s MAX_DESCRIPTION_LENGTH =
      String.mk (s.toList.take (MAX_DESCRIPTION_LENGTH - 3)) ++ "..." ∧
    (truncateText s MAX_DESCRIPTION_LENGTH).length = MAX_DESCRIPTION_LENGTH := by
  have hne : ¬ s.length ≤ MAX_DESCRIPTION_LENGTH := Nat.not_le.mpr h
  have he : truncateText s MAX_DESCRIPTION_LENGTH =
      String.mk (s.toList.take (MAX_DESCRIPTION_LENGTH - 3)) ++ "..." := by
    unfold truncateText
    exact if_neg hne
  refine ⟨he, ?_⟩
  rw [he, String.length_append]
  have h1 : (String.mk (s.toList.take (MAX_DESCRIPTION_LENGTH - 3))).length =
      (s.toList.take (MAX_DESCRIPTION_LENGTH - 3)).length := rfl
  have h2 : s.toList.length = s.length := rfl
  have h3 : ("..." : String).length = 3 := rfl
  rw [h1, List.length_take, h2, h3]
  have h4 : MAX_DESCRIPTION_LENGTH = 200 := rfl
  rw [h4] at h ⊢
  omega

/-- C8: descriptions longer than the configured maximum (200) are
truncated to exactly the maximum length with a trailing "..." marker,
descriptions at or under the maximum are returned unchanged, and every
description the web search adapter formats is bounded by the maximum. -/
theorem searchWeb_truncation (s : String) :
    (MAX_DESCRIPTION_LENGTH < s.length →
      (truncateText s MAX_DESCRIPTION_LENGTH).length = MAX_DESCRIPTION_LENGTH ∧
      ∃ t, truncateText s MAX_DESCRIPTION_LENGTH = t ++ "...") ∧
    (s.length ≤ MAX_DESCRIPTION_LENGTH → truncateText s MAX_DESCRIPTION_LENGTH = s) ∧
    (∀ rs : List SearchResultRaw, ∀ fr ∈ formatSearchResults rs,
      fr.description.length ≤ MAX_DESCRIPTION_LENGTH) := by
  refine ⟨?_, ?_, ?_⟩
  · intro h
    exact ⟨(truncateText_long s h).2, _, (truncateText_long s h).1⟩
  · intro h
    unfold truncateText
    exact if_pos h
  · intro rs fr hfr
    obtain ⟨r, hr, hfr'⟩ := List.mem_map.mp hfr
    have hdesc : fr.description = truncateText r.description MAX_DESCRIPTION_LENGTH := by
      rw [← hfr']
    rw [hdesc]
    by_cases hl : r.description.length ≤ MAX_DESCRIPTION_LENGTH
    · have he : truncateText r.description MAX_DESCRIPTION_LENGTH = r.description := by
        unfold truncateText
        exact if_pos hl
      rw [he]
      exact hl
    · rw [(truncateText_long r.description (Nat.not_le.mp hl)).2]

set_option maxRecDepth 4000 in
/-- Concrete application of `searchWeb_truncation`: a 250-character
description is truncated to exactly 200 characters ending in "...", and
a short description is returned unchanged. -/
theorem searchWeb_truncation_witness :
    (truncateText (String.mk (List.replicate 250 'a')) MAX_DESCRIPTION_LENGTH).length =
      MAX_DESCRIPTION_LENGTH ∧
    truncateText "short description" MAX_DESCRIPTION_LENGTH = "short description" := by
  constructor
  · exact ((searchWeb_truncation (String.mk (List.replicate 250 'a'))).1 (by decide)).1
  · exact (searchWeb_truncation "short description").2.1 (by decide)

/-- C9: every failure path of the weather adapter returns a
human-readable string (the function is total, so no exception crosses its
boundary): a 404 response yields a string containing "not found",
a missing API key yields the configuration message regardless of the
fetch outcome, 401 yields the authentication message, 429/403 yield the
rate-limit message, any other non-2xx status yields the generic message
with the status code, and a thrown error yields its message prefixed with
"Error fetching weather: ". -/
theorem getWeatherInformation_errors (key city : String) (d : WeatherData)
    (status : Nat) (m : Option String) :
    (∃ a b, getWeatherInformation (some key) city (.response 404 d) =
      a ++ ("not found" ++ b)) ∧
    getWeatherInformation none city (.response status d) = weatherNotConfiguredMsg ∧
    getWeatherInformation none city (.threw m) = weatherNotConfiguredMsg ∧
    getWeatherInformation (some key) city (.response 401 d) = weatherAuthMsg ∧
    (isRateLimitError status = true →
      getWeatherInformation (some key) city (.response status d) = weatherRateLimitMsg) ∧
    (¬(200 ≤ status ∧ status < 300) → status ≠ 404 → status ≠ 401 →
      isRateLimitError status = false →
      getWeatherInformation (some key) city (.response status d) =
        "Unable to fetch weather data (Error " ++ toString status ++
          "). Please try again later.") ∧
    getWeatherInformation (some key) city (.threw m) =
      "Error fetching weather: " ++
        (match m with | some s => s | none => "Unknown error") := by
  refine ⟨?_, rfl, rfl, ?_, ?_, ?_, rfl⟩
  · have he : getWeatherInformation (some key) city (.response 404 d) =
        "City \"" ++ city ++ weatherNotFoundTail := by
      simp [getWeatherInformation]
    refine ⟨"City \"" ++ city ++ "\" ", ". Please check the spelling and try again.", ?_⟩
    rw [he]
    have ht : weatherNotFoundTail =
        "\" " ++ ("not found" ++ ". Please check the spelling and try again.") := by decide
    calc ("City \"" ++ city) ++ weatherNotFoundTail
        = ("City \"" ++ city) ++
            ("\" " ++ ("not found" ++ ". Please check the spelling and try again.")) := by
          rw [ht]
      _ = (("City \"" ++ city) ++ "\" ") ++
            ("not found" ++ ". Please check the spelling and try again.") :=
          (String.append_assoc _ _ _).symm
  · simp [getWeatherInformation]
  · intro hr
    have hor : status = 429 ∨ status = 403 := by
      have h2 := hr
      unfold isRateLimitError at h2
      rcases Bool.or_eq_true_iff.mp h2 with h9 | h3
      · exact Or.inl (beq_iff_eq.mp h9)
      · exact Or.inr (beq_iff_eq.mp h3)
    rcases hor with h9 | h3
    · subst h9
      simp [getWeatherInformation, isRateLimitError]
    · subst h3
      simp [getWeatherInformation, isRateLimitError]
  · intro h2xx hn404 hn401 hrate
    have hni : ¬ isRateLimitError status = true := by
      rw [hrate]
      exact Bool.false_ne_true
    simp only [getWeatherInformation]
    rw [if_neg h2xx, if_neg hn404, if_neg hn401, if_neg hni]

/-- Sample weather payload for the witness. -/
def c9Data : WeatherData :=
  { name := "Paris", country := "FR", temp := 12, feelsLike := 11, description := "cloudy", humidity := 70, windSpeed := 3 }

/-- Concrete application of `getWeatherInformation_errors`: a 404
response produces a string containing "not found", and a 429 response
produces the rate-limit message. -/
theorem getWeatherInformation_errors_witness :
    (∃ a b, getWeatherInformation (some "k") "Par1s" (.response 404 c9Data) =
      a ++ ("not found" ++ b)) ∧
    getWeatherInformation (some "k") "Par1s" (.response 429 c9Data) = weatherRateLimitMsg := by
  constructor
  · exact (getWeatherInformation_errors "k" "Par1s" c9Data 429 none).1
  · exact (getWeatherInformation_errors "k" "Par1s" c9Data 429 none).2.2.2.2.1 (by decide)

/-- C10: the listing tool never returns more than 20 tasks: an empty
store yields the no-tasks string, a store with 1..20 tasks yields all of
them, and a store with more than 20 yields exactly the first 20 together
with a message stating that 20 of n tasks are shown. -/
theorem getScheduledTasks_cap (ts : List ScheduledTask) :
    (returnedTasks (getScheduledTasks ts)).length ≤ MAX_TASKS ∧
    (ts.length = 0 → getScheduledTasks ts = .msg "No scheduled tasks found.") ∧
    (0 < ts.length → ts.length ≤ MAX_TASKS → getScheduledTasks ts = .tasks ts) ∧
    (MAX_TASKS < ts.length →
      getScheduledTasks ts =
        .limited (ts.take MAX_TASKS)
          ("Showing 20 of " ++ toString ts.length ++
            " tasks. Use cancelScheduledTask to remove tasks and see more.") ∧
      (ts.take MAX_TASKS).length = MAX_TASKS) := by
  have hmsg : ∀ n : Nat, ("Showing " ++ toString MAX_TASKS ++ " of " ++ toString n ++
      " tasks. Use cancelScheduledTask to remove tasks and see more.") =
      ("Showing 20 of " ++ toString n ++
        " tasks. Use cancelScheduledTask to remove tasks and see more.") := by
    intro n
    have h20 : ("Showing " ++ toString MAX_TASKS ++ " of " : String) = "Showing 20 of " := by
      decide
    rw [← h20]
  refine ⟨?_, ?_, ?_, ?_⟩
  · unfold getScheduledTasks
    by_cases h0 : ts.length = 0
    · rw [if_pos h0]
      exact Nat.zero_le _
    · rw [if_neg h0]
      by_cases hgt : ts.length > MAX_TASKS
      · rw [if_pos hgt]
        show (ts.take MAX_TASKS).length ≤ MAX_TASKS
        rw [List.length_take]
        exact Nat.min_le_left _ _
      · rw [if_neg hgt]
        show ts.length ≤ MAX_TASKS
        exact Nat.le_of_not_lt hgt
  · intro h0
    unfold getScheduledTasks
    exact if_pos h0
  · intro hpos hle
    unfold getScheduledTasks
    rw [if_neg (by omega), if_neg (by omega)]
  · intro hgt
    constructor
    · unfold getScheduledTasks
      rw [if_neg (by omega), if_pos (by omega), hmsg]
    · rw [List.length_take]
      have h4 : MAX_TASKS = 20 := rfl
      rw [h4] at hgt ⊢
      omega

/-- Concrete application of `getScheduledTasks_cap`: a store of 21 tasks
returns exactly the first 20 with the "Showing 20 of 21 tasks" message,
and a store of 2 tasks returns both. -/
theorem getScheduledTasks_cap_witness :
    getScheduledTasks (List.replicate 21 { id := "t", description := "d" }) =
      .limited (List.replicate 20 { id := "t", description := "d" })
        ("Showing 20 of 21 tasks. Use cancelScheduledTask to remove tasks and see more.") ∧
    getScheduledTasks [{ id := "a", description := "x" }, { id := "b", description := "y" }] =
      .tasks [{ id := "a", description := "x" }, { id := "b", description := "y" }] := by
  constructor
  · have h := ((getScheduledTasks_cap
      (List.replicate 21 { id := "t", description := "d" })).2.2.2 (by decide)).1
    rw [h]
    decide
  · exact (getScheduledTasks_cap _).2.2.1 (by decide) (by decide)
